import Mathlib

/-!
# River Ride — formal model of the simulation core

A shallow embedding of the Go sources of the `river-ride` repository:
the terrain generator, the scroll buffer, the collision evaluator and the
game-state machine (`src/main.go`, the endless-scroll variant, and the
reach-the-top variant in `src/unnamed/part_001`).

Conventions of the embedding:
* Go `int` is modelled as `Int`; Go integer division truncates toward zero,
  which is `Int.tdiv` (all reachable divisions here have non-negative
  operands, where `tdiv` agrees with `/`).
* A Go runtime panic (out-of-range slice index, `make` with a negative
  length) is modelled by returning `none`; a normal result is `some _`.
* `math/rand`'s process-wide generator is modelled as an explicit stream of
  naturals (`Rng`); `rand.Intn n` takes the next value modulo `n`.  The spec
  (§9, §4.1) requires the randomness source to be injectable.
* The sinusoidal offset `int(math.Sin(float64(y)/5) * 10)` used by
  `initializeTerrain` is float64 arithmetic; it is kept as an explicit
  parameter `offs : Nat → Int` of the generator.  The real offsets satisfy
  `|offs y| ≤ 10` (|sin| ≤ 1, scaled by 10 and truncated toward zero), which
  is the only fact the general theorems use.  `sinOffset` below reproduces
  the concrete values for the rows of the concrete grids considered.
-/

/-- Terrain cell kind (`Land`/`River` in the source; the spec calls the
river cell "Channel"). -/
inductive Cell where
  | Land : Cell
  | River : Cell
deriving DecidableEq, Repr

/-- Game state (`TitleScreen`, `Playing`, `GameOver`, `Win` in the source). -/
inductive GameState where
  | TitleScreen : GameState
  | Playing : GameState
  | GameOver : GameState
  | Win : GameState
deriving DecidableEq, Repr

/-- The player's coordinates (struct `Player` in the source). -/
structure Player where
  X : Int
  Y : Int
deriving DecidableEq, Repr

/-- A terrain grid: a list of rows, each a list of cells
(`[][]int` in the source). -/
abbrev Grid := List (List Cell)

/-- The world state (struct `World` in the source; the `GameOver` boolean
field exists in the source but is never read). -/
structure World where
  Player : Player
  Width : Int
  Height : Int
  Terrain : Grid
  GameOverFlag : Bool
  Score : Int
  ScrollTicker : Int
deriving DecidableEq, Repr

/-- The bubbletea model (struct `model` in the source). -/
structure model where
  state : GameState
  world : World
  width : Int
  height : Int
deriving DecidableEq, Repr

/-- Injectable randomness: a stream of naturals (spec §9 requires an explicit
generator instance in place of `math/rand`'s process-wide one). -/
def Rng : Type := Nat → Nat

/-- `rand.Intn n`: consume one stream value, reduce it modulo `n`.
All call sites in the source pass a positive literal `n`. -/
def intn (r : Rng) (n : Nat) : Nat × Rng :=
  (r 0 % n, fun i => r (i + 1))

/-- Cell read `t[y][x]` (meaningful when `y`/`x` are in range). -/
def getCell (t : Grid) (y x : Nat) : Cell :=
  (t.getD y []).getD x Cell.Land

/-- Cell write `t[y][x] = c` (identity out of range; the source always
guards indices before writing). -/
def setCell (t : Grid) (y x : Nat) (c : Cell) : Grid :=
  t.set y ((t.getD y []).set x c)

/-- The inner carving loop `for x := lo; x <= hi; x++ { if 0 <= x < width
{ row[x] = River } }` over a single row, recursing on the remaining
iteration count, with `x` the current index. -/
def carveCellsAux (row : List Cell) (x width : Int) : Nat → List Cell
  | 0 => row
  | n + 1 =>
    carveCellsAux (if 0 ≤ x ∧ x < width then row.set x.toNat Cell.River else row)
      (x + 1) width n

/-- Carve `[lo, hi]` (clamped to `[0, width)`) into a row as `River`. -/
def carveCells (row : List Cell) (lo hi width : Int) : List Cell :=
  carveCellsAux row lo width (hi + 1 - lo).toNat

/-- `initializeTerrain`'s branch loop: for `i` in `[0, n)`, cell
`(y+i, center + (i+1)*dir)` is set `River` when in bounds
(src/main.go lines 119-124). -/
def branchCarve (t : Grid) (y : Nat) (center dir width : Int) (height : Nat) :
    Nat → Nat → Grid
  | _, 0 => t
  | i, n + 1 =>
    let bx := center + ((i : Int) + 1) * dir
    let t' := if 0 ≤ bx ∧ bx < width ∧ y + i < height
      then setCell t (y + i) bx.toNat Cell.River else t
    branchCarve t' y center dir width height (i + 1) n

/-- `generateNewRow`'s branch loop: for `i` in `[0, n)`, cell
`start + i*dir` of the row is set `River` when in bounds
(src/main.go lines 202-207; note `i*dir`, not `(i+1)*dir`). -/
def branchCells (row : List Cell) (start dir width : Int) : Nat → Nat → List Cell
  | _, 0 => row
  | i, n + 1 =>
    let x := start + (i : Int) * dir
    let row' := if 0 ≤ x ∧ x < width then row.set x.toNat Cell.River else row
    branchCells row' start dir width (i + 1) n

/-- One row `y` of `initializeTerrain`'s generation loop
(src/main.go lines 99-126): carve the sinusoidal channel of half-width `hw`,
then with probability 1/20 carve a branch of random length 5-14 and random
direction. -/
def initRow (width : Int) (height : Nat) (centerX hw : Int) (offs : Nat → Int)
    (acc : Grid × Rng) (y : Nat) : Grid × Rng :=
  let riverCenter := centerX + offs y
  let t := acc.1.set y (carveCells (acc.1.getD y []) (riverCenter - hw) (riverCenter + hw) width)
  let (b, rng) := intn acc.2 20
  if b = 0 then
    let (l, rng) := intn rng 10
    let branchLength := l + 5
    let (d, rng) := intn rng 2
    let dir : Int := if d = 0 then -1 else 1
    (branchCarve t y riverCenter dir width height 0 branchLength, rng)
  else (t, rng)

/-- The scanning loop of `generateNewRow` and `placePlayerInRiver`: visit the
cells in order, keeping `(leftmost, rightmost)` indices holding `River`,
both starting at `-1` (src/main.go lines 147-156 and 229-238). -/
def scanRiverAux (cells : List Cell) (x : Nat) (acc : Int × Int) : Int × Int :=
  match cells with
  | [] => acc
  | c :: rest =>
    let acc' := if c = Cell.River then
        (if acc.1 = -1 then ((x : Int), (x : Int)) else (acc.1, (x : Int)))
      else acc
    scanRiverAux rest (x + 1) acc'

/-- Scan a row for the leftmost/rightmost `River` cell; `(-1, -1)` when none. -/
def scanRiver (cells : List Cell) : Int × Int :=
  scanRiverAux cells 0 (-1, -1)

/-- `generateNewRow` (src/main.go lines 137-211).  Reads the current top row
`Terrain[0]`; `none` models the Go panics: a negative `width` in `make`, an
empty terrain, or a top row shorter than `width`.  When the scanned prefix
has no `River` cell, the deterministic fallback row (fixed width 15 centered
at `width/2`) is returned without consuming randomness. -/
def generateNewRow (width : Int) (t : Grid) (rng : Rng) : Option (List Cell × Rng) :=
  if width < 0 then none
  else
    let w := width.toNat
    let newRow : List Cell := List.replicate w Cell.Land
    match t.head? with
    | none => none
    | some row0 =>
      if row0.length < w then none
      else
        let lr := scanRiver (row0.take w)
        if lr.1 = -1 ∨ lr.2 = -1 then
          let centerX := Int.tdiv width 2
          let riverWidth : Int := 15
          some (carveCells newRow (centerX - Int.tdiv riverWidth 2)
            (centerX + Int.tdiv riverWidth 2) width, rng)
        else
          let riverCenter := lr.1 + Int.tdiv (lr.2 - lr.1) 2
          let riverWidth := lr.2 - lr.1 + 1
          let (a, rng) := intn rng 3
          let riverCenter := riverCenter + (a : Int) - 1
          let (b, rng) := intn rng 10
          let (riverWidth, rng) :=
            if b = 0 then
              let (c, rng) := intn rng 3
              let rw := riverWidth + (c : Int) - 1
              (if rw < 8 then (8 : Int) else rw, rng)
            else (riverWidth, rng)
          let row := carveCells newRow (riverCenter - Int.tdiv riverWidth 2)
            (riverCenter + Int.tdiv riverWidth 2) width
          let (d, rng) := intn rng 20
          if d = 0 then
            let (dd, rng) := intn rng 2
            let dir : Int := if dd = 0 then -1 else 1
            let (bw, rng) := intn rng 5
            some (branchCells row riverCenter dir width 0 (bw + 2), rng)
          else some (row, rng)

/-- A row scan of `placePlayerInRiver`'s fallback loop (src/main.go lines
246-254): Go returns on the first `River` cell, so a row shorter than
`width` faults only when its scanned prefix has no `River` cell.
`none` = fault, `some none` = no river here, `some (some x)` = river at `x`. -/
def findInRow (row : List Cell) (width : Nat) : Option (Option Nat) :=
  match (row.take width).findIdx? (· = Cell.River) with
  | some x => some (some x)
  | none => if width ≤ row.length then some none else none

/-- `placePlayerInRiver`'s fallback: scan rows bottom-up (`y` from
`height-1` down to 0); the fuel argument is `y+1`. -/
def findRiverFrom (t : Grid) (width : Nat) : Nat → Option (Option (Nat × Nat))
  | 0 => some none
  | y + 1 =>
    match findInRow (t.getD y []) width with
    | none => none
    | some (some x) => some (some (x, y))
    | some none => findRiverFrom t width y

/-- `placePlayerInRiver` (src/main.go lines 214-258).  Note the source reads
`len(m.world.Terrain[0])` *before* its `height == 0 || width == 0` guard, so
an empty terrain grid is a fault (`none`), not a no-op. -/
def placePlayerInRiver (m : model) : Option model :=
  let t := m.world.Terrain
  let height := t.length
  match t.head? with
  | none => none
  | some row0 =>
    let width := row0.length
    if height = 0 ∨ width = 0 then some m
    else
      let playerY : Int := if (height : Int) - 5 < 0 then 0 else (height : Int) - 5
      let rowY := t.getD playerY.toNat []
      if rowY.length < width then none
      else
        let lr := scanRiver (rowY.take width)
        if lr.1 ≠ -1 ∧ lr.2 ≠ -1 then
          some { m with world := { m.world with
            Player := ⟨lr.1 + Int.tdiv (lr.2 - lr.1) 2, playerY⟩ } }
        else
          match findRiverFrom t width height with
          | none => none
          | some none => some m
          | some (some (x, y)) =>
            some { m with world := { m.world with Player := ⟨(x : Int), (y : Int)⟩ } }

/-- `initializeTerrain` (src/main.go lines 79-134), parameterized by the
sinusoidal offset sequence `offs` (see the header).  `none` models the Go
panics: `make` with a negative length (window height < 2, or negative width
with at least one row), and the `placePlayerInRiver` fault on a zero-row
grid (window height = 2). -/
def initializeTerrain (m : model) (offs : Nat → Int) (rng : Rng) :
    Option (model × Rng) :=
  let width := m.width
  if m.height - 2 < 0 then none
  else
    let height : Nat := (m.height - 2).toNat
    if width < 0 ∧ height ≠ 0 then none
    else
      let t0 : Grid := List.replicate height (List.replicate width.toNat Cell.Land)
      let (rw, rng) := intn rng 11
      let riverWidth : Int := (rw : Int) + 10
      let centerX := Int.tdiv width 2
      let res := (List.range height).foldl
        (initRow width height centerX (Int.tdiv riverWidth 2) offs) (t0, rng)
      match placePlayerInRiver { m with world := { m.world with Terrain := res.1 } } with
      | none => none
      | some m' => some (m', res.2)

/-- `scrollTerrain` (src/main.go lines 261-279).  The source shifts every row
up in place and then generates the new bottom row from the shifted top row
`Terrain[0]` (the old row 1), which is `t.tail`'s head; the shifted grid with
the fresh last row is `t.tail ++ [row]`. -/
def scrollTerrain (m : model) (rng : Rng) : Option (model × Rng) :=
  let t := m.world.Terrain
  if t.length ≤ 1 then some (m, rng)
  else
    match generateNewRow m.width t.tail rng with
    | none => none
    | some (row, rng') =>
      some ({ m with world := { m.world with
        Terrain := t.tail ++ [row], Score := m.world.Score + 1 } }, rng')

/-- `checkCollision` (src/main.go lines 282-300): bounds first (against the
grid's row count and the first row's length), then the cell; out of bounds or
`Land` sets `GameOver`, otherwise the model is returned unchanged.  `none`
models the panic reading `Terrain[y][x]` of a ragged grid. -/
def checkCollision (m : model) : Option model :=
  let px := m.world.Player.X
  let py := m.world.Player.Y
  let t := m.world.Terrain
  if py < 0 ∨ (t.length : Int) ≤ py ∨ px < 0 ∨ ((t.headD []).length : Int) ≤ px then
    some { m with state := GameState.GameOver }
  else
    match t[py.toNat]? with
    | none => none
    | some row =>
      match row[px.toNat]? with
      | none => none
      | some c =>
        if c = Cell.Land then some { m with state := GameState.GameOver }
        else some m

/-- `checkCollision` of the reach-the-top variant
(src/unnamed/part_001 lines 153-183): bounds, then `Land`, then the row-0 win
check, then the score increment for any position above the bottom row (the
source's comment says "only when moving up", but the code tests only
`Player.Y < len(Terrain)-1`). -/
def checkCollisionRT (m : model) : Option model :=
  let px := m.world.Player.X
  let py := m.world.Player.Y
  let t := m.world.Terrain
  if py < 0 ∨ (t.length : Int) ≤ py ∨ px < 0 ∨ ((t.headD []).length : Int) ≤ px then
    some { m with state := GameState.GameOver }
  else
    match t[py.toNat]? with
    | none => none
    | some row =>
      match row[px.toNat]? with
      | none => none
      | some c =>
        if c = Cell.Land then some { m with state := GameState.GameOver }
        else if py = 0 then some { m with state := GameState.Win }
        else if py < (t.length : Int) - 1 then
          some { m with world := { m.world with Score := m.world.Score + 1 } }
        else some m

/-- The collision outcome taxonomy of spec §4.3. -/
inductive Outcome where
  | Safe : Outcome
  | OutOfBounds : Outcome
  | OnLand : Outcome
  | GoalReached : Outcome
deriving DecidableEq, Repr

/-- The goal policy of spec §9: `ReachTop` for the variant that wins on row 0,
`NoGoal` for the endless variant. -/
inductive GoalPolicy where
  | NoGoal : GoalPolicy
  | ReachTop : GoalPolicy
deriving DecidableEq, Repr

/-- `evaluate` exactly as spec §4.3 words it (the reference for the claims
about outcome classification): bounds first, then `Land`, then the goal. -/
def evaluate (t : Grid) (px py : Int) (policy : GoalPolicy) : Outcome :=
  if py < 0 ∨ (t.length : Int) ≤ py ∨ px < 0 ∨ ((t.headD []).length : Int) ≤ px then
    Outcome.OutOfBounds
  else if getCell t py.toNat px.toNat = Cell.Land then Outcome.OnLand
  else if policy = GoalPolicy.ReachTop ∧ py = 0 then Outcome.GoalReached
  else Outcome.Safe

/-- The player position is inside the grid's dimensions (row count and the
first row's width, as the source measures them). -/
def inBounds (t : Grid) (px py : Int) : Prop :=
  0 ≤ px ∧ px < ((t.headD []).length : Int) ∧ 0 ≤ py ∧ py < (t.length : Int)

instance (t : Grid) (px py : Int) : Decidable (inBounds t px py) := by
  unfold inBounds; infer_instance

/-- The input events of the state machine (spec §6); literal key names are
decoded by the excluded rendering collaborator. -/
inductive Key where
  | up : Key
  | down : Key
  | left : Key
  | right : Key
  | start : Key
deriving DecidableEq, Repr

/-- The messages `Update` consumes: timer ticks, keys, window resizes. -/
inductive Msg where
  | tick : Msg
  | key : Key → Msg
  | resize : Int → Int → Msg
deriving DecidableEq, Repr

/-- `Update` (src/main.go lines 306-381): the endless variant's event
handler.  Quit is a process-boundary command and is omitted. -/
def Update (m : model) (msg : Msg) (offs : Nat → Int) (rng : Rng) :
    Option (model × Rng) :=
  match msg with
  | Msg.tick =>
    if m.state = GameState.Playing then
      let m1 := { m with world.ScrollTicker := m.world.ScrollTicker + 1 }
      if 5 ≤ m1.world.ScrollTicker then
        match scrollTerrain m1 rng with
        | none => none
        | some (m2, rng') =>
          match checkCollision m2 with
          | none => none
          | some m3 => some ({ m3 with world.ScrollTicker := 0 }, rng')
      else some (m1, rng)
    else some (m, rng)
  | Msg.key Key.start =>
    if m.state = GameState.TitleScreen ∨ m.state = GameState.GameOver ∨
        m.state = GameState.Win then
      initializeTerrain
        { m with state := GameState.Playing, world.Score := 0, world.ScrollTicker := 0 }
        offs rng
    else some (m, rng)
  | Msg.key Key.up =>
    if m.state = GameState.Playing ∧ 0 < m.world.Player.Y then
      match checkCollision { m with world.Player.Y := m.world.Player.Y - 1 } with
      | none => none
      | some m' => some (m', rng)
    else some (m, rng)
  | Msg.key Key.down =>
    if m.state = GameState.Playing ∧ m.world.Player.Y < m.height - 3 then
      match checkCollision { m with world.Player.Y := m.world.Player.Y + 1 } with
      | none => none
      | some m' => some (m', rng)
    else some (m, rng)
  | Msg.key Key.left =>
    if m.state = GameState.Playing ∧ 0 < m.world.Player.X then
      match checkCollision { m with world.Player.X := m.world.Player.X - 1 } with
      | none => none
      | some m' => some (m', rng)
    else some (m, rng)
  | Msg.key Key.right =>
    if m.state = GameState.Playing ∧ m.world.Player.X < m.width - 1 then
      match checkCollision { m with world.Player.X := m.world.Player.X + 1 } with
      | none => none
      | some m' => some (m', rng)
    else some (m, rng)
  | Msg.resize w h =>
    let m' := { m with width := w, height := h, world.Width := w, world.Height := h }
    if m'.state = GameState.Playing then initializeTerrain m' offs rng
    else some (m', rng)

/-- Iterated tick events (for the scroll-cadence scenario of spec §8). -/
def ticks (offs : Nat → Int) : Nat → model → Rng → Option (model × Rng)
  | 0, m, rng => some (m, rng)
  | n + 1, m, rng =>
    match Update m Msg.tick offs rng with
    | none => none
    | some (m', rng') => ticks offs n m' rng'

/-- The cells `s, s+1, …, s+len-1` of a row are all `River`. -/
def runFrom (row : List Cell) (s len : Nat) : Bool :=
  (List.range len).all fun j => row.getD (s + j) Cell.Land = Cell.River

/-- The row holds a contiguous run of `River` cells of the given length. -/
def hasRun (row : List Cell) (len : Nat) : Bool :=
  (List.range row.length).any fun s => runFrom row s len

/-- Every row has the length of the first row (the spec's §3 rectangularity
invariant of `TerrainGrid`). -/
def Uniform (t : Grid) : Prop :=
  ∀ row ∈ t, row.length = (t.headD []).length

instance (t : Grid) : Decidable (Uniform t) := by
  unfold Uniform; infer_instance

/-- The Playing-state bounds invariant of spec §3. -/
def PlayInv (m : model) : Prop :=
  m.state = GameState.Playing → inBounds m.world.Terrain m.world.Player.X m.world.Player.Y

instance (m : model) : Decidable (PlayInv m) := by
  unfold PlayInv; infer_instance

/-- `sin(y/5)` scaled by the common denominator `5^13 * 13!`: the degree-13
Taylor polynomial of sine evaluated at `y/5` as an exact integer fraction
(`sinNum y / 7601343750000000000`).  For `0 ≤ y ≤ 9` (so `y/5 ≤ 1.8`) the
truncated Taylor series is within `2^-27` of real `sin(y/5)`, far inside
the distance of `10*sin(y/5)` from the nearest integer, so `sinOffset`
below agrees with the float64 value for those rows. -/
def sinNum (y : Nat) : Int :=
  let z : Int := (y : Int)
  let z2 := z * z
  let z3 := z2 * z
  let z5 := z3 * z2
  let z7 := z5 * z2
  let z9 := z7 * z2
  let z11 := z9 * z2
  let z13 := z11 * z2
  z * 1520268750000000000 - z3 * 10135125000000000 + z5 * 20270250000000
    - z7 * 19305000000 + z9 * 10725000 - z11 * 3900 + z13

/-- The sinusoidal channel offset `int(math.Sin(float64(y)/5) * 10)` of
`initializeTerrain` (src/main.go line 101): `10 * sin(y/5)` truncated toward
zero (Go's float-to-int conversion), via the exact Taylor fraction
(faithful for the rows `y < 10` used on concrete inputs here; the Taylor
polynomial diverges from sine for much larger `y`). -/
def sinOffset (y : Nat) : Int :=
  Int.tdiv (10 * sinNum y) 7601343750000000000

/-- The terrain of an evaluation result (`[]` on a fault), for stating
concrete evaluations without quantifying over the returned rng stream. -/
def terrainOf (o : Option (model × Rng)) : Grid :=
  match o with
  | none => []
  | some p => p.1.world.Terrain

/-- The model of an evaluation result, falling back to the given model on a
fault. -/
def modelOf (m : model) (o : Option (model × Rng)) : model :=
  match o with
  | none => m
  | some p => p.1

/-- A world fixture for concrete evaluations: player at (10, 5), as
`initialModel` sets it. -/
def world0 : World :=
  { Player := ⟨10, 5⟩, Width := 0, Height := 0, Terrain := [],
    GameOverFlag := false, Score := 0, ScrollTicker := 0 }

/-- Fixture: width 1, 3-row window (one-row grid) for the scroll no-op. -/
def mC8 : model :=
  { state := GameState.Playing,
    world := { world0 with Terrain := [[Cell.River]] }, width := 1, height := 3 }

/-- Fixture: a constant-1 randomness stream (every `Intn n` yields `1 % n`). -/
def oneRng : Rng := fun _ => 1

/-- Fixture: the degenerate window of height 2 (zero-row terrain grid). -/
def mC1 : model :=
  { state := GameState.Playing, world := world0, width := 30, height := 2 }

/-- Fixture: a 2×2 all-river grid, player in bounds at (0, 1). -/
def mC2 : model :=
  { state := GameState.Playing,
    world := { world0 with
      Terrain := [[Cell.River, Cell.River], [Cell.River, Cell.River]],
      Player := ⟨0, 1⟩ },
    width := 2, height := 4 }

/-- Fixture: player at (1, 0) of a 2×2 all-river grid (top row, Channel). -/
def mC6 : model :=
  { state := GameState.Playing,
    world := { world0 with
      Terrain := [[Cell.River, Cell.River], [Cell.River, Cell.River]],
      Player := ⟨1, 0⟩ },
    width := 2, height := 4 }

/-- Fixture: player at (1, 1) of a 3×3 all-river grid (above the bottom row,
reached by any of the four moves). -/
def mC10 : model :=
  { state := GameState.Playing,
    world := { world0 with
      Terrain := List.replicate 3 (List.replicate 3 Cell.River),
      Player := ⟨1, 1⟩ },
    width := 3, height := 5 }

/-- Fixture: a 3×4 grid for the scroll-step witness. -/
def mC3 : model :=
  { state := GameState.Playing,
    world := { world0 with Terrain :=
      [[Cell.Land, Cell.River, Cell.River, Cell.Land],
       [Cell.Land, Cell.Land, Cell.River, Cell.River],
       [Cell.River, Cell.River, Cell.Land, Cell.Land]] },
    width := 4, height := 5 }

/-- Fixture: a 6×8 all-river grid in the Playing state, ticker 0. -/
def mC4 : model :=
  { state := GameState.Playing,
    world := { world0 with
      Terrain := List.replicate 6 (List.replicate 8 Cell.River),
      Player := ⟨4, 3⟩ },
    width := 8, height := 8 }

/-- Fixture: a valid Playing state (player (4,3) inside a 6×8 grid) about to
receive a resize event. -/
def mC7 : model :=
  { state := GameState.Playing,
    world := { world0 with
      Terrain := List.replicate 6 (List.replicate 8 Cell.River),
      Player := ⟨4, 3⟩ },
    width := 8, height := 8 }

/-- Fixture: a width-20 window of height 12 (a 20×10 terrain grid, the
claim's boundary case width = 20, height = 10). -/
def mC5 : model :=
  { state := GameState.Playing, world := world0, width := 20, height := 12 }

/-- Fixture: a width-25 window of height 12 for the amended C5 witness. -/
def mC5w : model :=
  { state := GameState.Playing, world := world0, width := 25, height := 12 }

theorem getCell_lookup (t : Grid) (px py : Int) (hU : Uniform t)
    (hin : inBounds t px py) :
    t[py.toNat]? = some (t.getD py.toNat []) ∧
    (t.getD py.toNat [])[px.toNat]? = some (getCell t py.toNat px.toNat) := by
  obtain ⟨hx0, hxw, hy0, hyh⟩ := hin
  have hy : py.toNat < t.length := by omega
  have h1 : t[py.toNat]? = some t[py.toNat] := List.getElem?_eq_getElem hy
  have h2 : t.getD py.toNat [] = t[py.toNat] := by
    simp [List.getD_eq_getElem?_getD, h1]
  have hmem : t[py.toNat] ∈ t := List.getElem_mem hy
  have hlen : t[py.toNat].length = (t.headD []).length := hU _ hmem
  have hx : px.toNat < t[py.toNat].length := by omega
  refine ⟨h2 ▸ h1, ?_⟩
  rw [h2]
  rw [List.getElem?_eq_getElem hx]
  unfold getCell
  rw [h2]
  simp [List.getD_eq_getElem?_getD, List.getElem?_eq_getElem hx]

theorem checkCollision_eq (m : model) (hU : Uniform m.world.Terrain) :
    checkCollision m =
      some (if evaluate m.world.Terrain m.world.Player.X m.world.Player.Y
          GoalPolicy.NoGoal = Outcome.Safe then m
        else { m with state := GameState.GameOver }) := by
  unfold checkCollision evaluate
  by_cases hB : m.world.Player.Y < 0 ∨ (m.world.Terrain.length : Int) ≤ m.world.Player.Y ∨
      m.world.Player.X < 0 ∨ ((m.world.Terrain.headD []).length : Int) ≤ m.world.Player.X
  · simp only [hB, if_pos]
    simp
  · have hin : inBounds m.world.Terrain m.world.Player.X m.world.Player.Y := by
      unfold inBounds; omega
    obtain ⟨h1, h2⟩ := getCell_lookup _ _ _ hU hin
    simp only [hB, if_neg, h1, h2]
    by_cases hL : getCell m.world.Terrain m.world.Player.Y.toNat m.world.Player.X.toNat
        = Cell.Land
    · simp [hL]
    · simp [hL]

/-- C2: over all terrains and player positions (with the spec's rectangular
`TerrainGrid` invariant), the collision evaluation yields `OnLand` iff the
position is in bounds and the cell is `Land`, yields `OutOfBounds` iff the
position is outside `[0, height) × [0, width)` regardless of any cell, and
`checkCollision` leaves the model unchanged on `Safe` while sending
`OutOfBounds` and `OnLand` to `GameOver`. -/
theorem collision_evaluation_c2 (m : model) (hU : Uniform m.world.Terrain) :
    (evaluate m.world.Terrain m.world.Player.X m.world.Player.Y GoalPolicy.NoGoal
        = Outcome.OnLand ↔
      inBounds m.world.Terrain m.world.Player.X m.world.Player.Y ∧
        getCell m.world.Terrain m.world.Player.Y.toNat m.world.Player.X.toNat
          = Cell.Land)
    ∧ (evaluate m.world.Terrain m.world.Player.X m.world.Player.Y GoalPolicy.NoGoal
        = Outcome.OutOfBounds ↔
      ¬ inBounds m.world.Terrain m.world.Player.X m.world.Player.Y)
    ∧ (evaluate m.world.Terrain m.world.Player.X m.world.Player.Y GoalPolicy.NoGoal
        = Outcome.Safe → checkCollision m = some m)
    ∧ (evaluate m.world.Terrain m.world.Player.X m.world.Player.Y GoalPolicy.NoGoal
          = Outcome.OutOfBounds ∨
       evaluate m.world.Terrain m.world.Player.X m.world.Player.Y GoalPolicy.NoGoal
          = Outcome.OnLand →
      checkCollision m = some { m with state := GameState.GameOver }) := by
  have hcc := checkCollision_eq m hU
  have hBiff : (m.world.Player.Y < 0 ∨ (m.world.Terrain.length : Int) ≤ m.world.Player.Y ∨
      m.world.Player.X < 0 ∨ ((m.world.Terrain.headD []).length : Int) ≤ m.world.Player.X)
      ↔ ¬ inBounds m.world.Terrain m.world.Player.X m.world.Player.Y := by
    unfold inBounds; omega
  refine ⟨?_, ?_, ?_, ?_⟩
  · unfold evaluate
    by_cases hB : m.world.Player.Y < 0 ∨ (m.world.Terrain.length : Int) ≤ m.world.Player.Y ∨
        m.world.Player.X < 0 ∨ ((m.world.Terrain.headD []).length : Int) ≤ m.world.Player.X
    · simp only [hB, if_pos]
      constructor
      · intro h; exact absurd h (by simp)
      · intro ⟨hin, _⟩; exact absurd hin (hBiff.mp hB)
    · simp only [hB, if_neg]
      by_cases hL : getCell m.world.Terrain m.world.Player.Y.toNat m.world.Player.X.toNat
          = Cell.Land
      · simp [hL]
        unfold inBounds; omega
      · simp [hL]
  · unfold evaluate
    by_cases hB : m.world.Player.Y < 0 ∨ (m.world.Terrain.length : Int) ≤ m.world.Player.Y ∨
        m.world.Player.X < 0 ∨ ((m.world.Terrain.headD []).length : Int) ≤ m.world.Player.X
    · simp only [hB, if_pos]
      simpa using hBiff.mp hB
    · simp only [hB, if_neg]
      by_cases hL : getCell m.world.Terrain m.world.Player.Y.toNat m.world.Player.X.toNat
          = Cell.Land
      · have hin : inBounds m.world.Terrain m.world.Player.X m.world.Player.Y := by
          unfold inBounds; omega
        simp only [hL, if_pos]
        constructor
        · intro h; exact absurd h (by simp)
        · intro h; exact absurd hin h
      · simp only [hL, if_neg]
        constructor
        · intro h
          by_cases hG : (GoalPolicy.NoGoal = GoalPolicy.ReachTop ∧ m.world.Player.Y = 0)
          · rw [if_pos hG] at h; exact absurd h (by simp)
          · rw [if_neg hG] at h; exact absurd h (by simp)
        · intro h; exact absurd (hBiff.mpr h) (by simpa using hB)
  · intro h
    rw [hcc, if_pos h]
  · intro h
    rcases h with h | h <;> rw [hcc, if_neg (by simp [h])]

/-- Witness for the C2 theorem at the concrete model `mC2`. -/
theorem collision_evaluation_c2_witness :
    evaluate mC2.world.Terrain mC2.world.Player.X mC2.world.Player.Y GoalPolicy.NoGoal
        = Outcome.OutOfBounds ↔
      ¬ inBounds mC2.world.Terrain mC2.world.Player.X mC2.world.Player.Y :=
  (collision_evaluation_c2 mC2 (by decide)).2.1

/-- C8: the scroll operation on a grid with at most one row is a no-op:
the model (terrain and score included) and the randomness stream are
returned unchanged. -/
theorem scroll_noop_c8 (m : model) (rng : Rng) (h : m.world.Terrain.length ≤ 1) :
    scrollTerrain m rng = some (m, rng) := by
  unfold scrollTerrain
  simp [h]

/-- Witness for C8 at the one-row fixture `mC8`. -/
theorem scroll_noop_c8_witness : scrollTerrain mC8 oneRng = some (mC8, oneRng) :=
  scroll_noop_c8 mC8 oneRng (by decide)

/-- C1 (code bug): the core does fault on degenerate windows.  A window of
height 2 yields a zero-row terrain grid and `placePlayerInRiver` reads
`Terrain[0]` before its own emptiness guard (src/main.go line 216), an
out-of-range access; a window of height 1 makes `initializeTerrain` call
`make([][]int, -1)`.  Both are modelled as `none` (Go panic), refuting the
claimed no-op/fallback behavior. -/
theorem degenerate_window_fault_c1 :
    (initializeTerrain mC1 (fun _ => 0) oneRng).isSome = false
    ∧ placePlayerInRiver mC1 = none
    ∧ (initializeTerrain { mC1 with height := 1 } (fun _ => 0) oneRng).isSome = false := by
  refine ⟨by decide, by decide, by decide⟩

/-- C6: in the reach-the-top variant, an in-bounds player on a Channel cell
at row 0 wins, while the `Land` check takes precedence: row 0 on a `Land`
cell is `GameOver`. -/
theorem reach_top_win_c6 (m : model) (hU : Uniform m.world.Terrain)
    (hplay : m.state = GameState.Playing)
    (hin : inBounds m.world.Terrain m.world.Player.X m.world.Player.Y) :
    (getCell m.world.Terrain m.world.Player.Y.toNat m.world.Player.X.toNat = Cell.River →
      m.world.Player.Y = 0 →
      checkCollisionRT m = some { m with state := GameState.Win })
    ∧ (getCell m.world.Terrain m.world.Player.Y.toNat m.world.Player.X.toNat = Cell.Land →
      checkCollisionRT m = some { m with state := GameState.GameOver }) := by
  have hB : ¬ (m.world.Player.Y < 0 ∨ (m.world.Terrain.length : Int) ≤ m.world.Player.Y ∨
      m.world.Player.X < 0 ∨ ((m.world.Terrain.headD []).length : Int) ≤ m.world.Player.X) := by
    unfold inBounds at hin; omega
  obtain ⟨h1, h2⟩ := getCell_lookup _ _ _ hU hin
  constructor
  · intro hR hy
    unfold checkCollisionRT
    simp only [hB, if_neg, h1, h2, hR]
    simp [hy]
  · intro hL
    unfold checkCollisionRT
    simp only [hB, if_neg, h1, h2, hL]
    simp

/-- Witness for C6: the concrete player at row 0 on a Channel cell wins. -/
theorem reach_top_win_c6_witness :
    checkCollisionRT mC6 = some { mC6 with state := GameState.Win } :=
  (reach_top_win_c6 mC6 (by decide) (by decide) (by decide)).1 (by decide) (by decide)

/-- C10: in the reach-the-top variant a safe evaluation (in bounds, Channel,
not row 0) increments the score exactly when the player's row is above the
bottom row — the test is only on the row index, so the score rises on safe
moves in every direction, not only upward. -/
theorem score_any_direction_c10 (m : model) (hU : Uniform m.world.Terrain)
    (hin : inBounds m.world.Terrain m.world.Player.X m.world.Player.Y)
    (hR : getCell m.world.Terrain m.world.Player.Y.toNat m.world.Player.X.toNat
      = Cell.River)
    (hy0 : m.world.Player.Y ≠ 0) :
    (m.world.Player.Y < (m.world.Terrain.length : Int) - 1 →
      checkCollisionRT m =
        some { m with world := { m.world with Score := m.world.Score + 1 } })
    ∧ ((m.world.Terrain.length : Int) - 1 ≤ m.world.Player.Y →
      checkCollisionRT m = some m) := by
  have hB : ¬ (m.world.Player.Y < 0 ∨ (m.world.Terrain.length : Int) ≤ m.world.Player.Y ∨
      m.world.Player.X < 0 ∨ ((m.world.Terrain.headD []).length : Int) ≤ m.world.Player.X) := by
    unfold inBounds at hin; omega
  obtain ⟨h1, h2⟩ := getCell_lookup _ _ _ hU hin
  constructor
  · intro hlt
    unfold checkCollisionRT
    simp only [hB, if_neg, h1, h2, hR]
    simp [hy0, hlt]
  · intro hge
    unfold checkCollisionRT
    simp only [hB, if_neg, h1, h2, hR]
    have : ¬ m.world.Player.Y < (m.world.Terrain.length : Int) - 1 := by omega
    simp [hy0, this]

/-- Witness for C10: the concrete safe position above the bottom row gains
one point. -/
theorem score_any_direction_c10_witness :
    checkCollisionRT mC10 =
      some { mC10 with world := { mC10.world with Score := mC10.world.Score + 1 } } :=
  (score_any_direction_c10 mC10 (by decide) (by decide) (by decide) (by decide)).1
    (by decide)

theorem carveCellsAux_length (n : Nat) :
    ∀ (row : List Cell) (x width : Int),
      (carveCellsAux row x width n).length = row.length := by
  induction n with
  | zero => intro row x width; rfl
  | succ n ih =>
    intro row x width
    unfold carveCellsAux
    rw [ih]
    by_cases h : 0 ≤ x ∧ x < width
    · simp [h]
    · simp [h]

theorem carveCellsAux_stable (n : Nat) :
    ∀ (row : List Cell) (x width : Int) (j : Nat),
      row.getD j Cell.Land = Cell.River →
      (carveCellsAux row x width n).getD j Cell.Land = Cell.River := by
  induction n with
  | zero => intro row x width j h; exact h
  | succ n ih =>
    intro row x width j h
    unfold carveCellsAux
    apply ih
    by_cases hg : 0 ≤ x ∧ x < width
    · rw [if_pos hg]
      by_cases hj : x.toNat = j
      · subst hj
        by_cases hlt : x.toNat < row.length
        · simp [List.getD_eq_getElem?_getD, List.getElem?_set, hlt]
        · rw [List.set_eq_of_length_le (by omega)]
          exact h
      · rw [List.getD_eq_getElem?_getD, List.getElem?_set_ne hj,
          ← List.getD_eq_getElem?_getD]
        exact h
    · rw [if_neg hg]
      exact h

theorem carveCellsAux_sets (n : Nat) :
    ∀ (row : List Cell) (x width : Int) (j : Nat),
      x ≤ (j : Int) → (j : Int) < x + n → (j : Int) < width → j < row.length →
      (carveCellsAux row x width n).getD j Cell.Land = Cell.River := by
  induction n with
  | zero => intro row x width j _ h2 _ _; omega
  | succ n ih =>
    intro row x width j h1 h2 h3 h4
    by_cases hj : (j : Int) = x
    · have hg : 0 ≤ x ∧ x < width := by omega
      have hxj : x.toNat = j := by omega
      unfold carveCellsAux
      apply carveCellsAux_stable
      simp only [hg, if_pos, hxj]
      simp [List.getD_eq_getElem?_getD, List.getElem?_set, h4]
    · unfold carveCellsAux
      apply ih
      · omega
      · omega
      · exact h3
      · by_cases hg : 0 ≤ x ∧ x < width
        · simp [hg, h4]
        · simp [hg, h4]

theorem carveCellsAux_other (n : Nat) :
    ∀ (row : List Cell) (x width : Int) (j : Nat) (d : Cell),
      ((j : Int) < x ∨ x + n ≤ (j : Int)) →
      (carveCellsAux row x width n).getD j d = row.getD j d := by
  induction n with
  | zero => intro row x width j d _; rfl
  | succ n ih =>
    intro row x width j d h
    unfold carveCellsAux
    rw [ih _ _ _ _ _ (by omega)]
    by_cases hg : 0 ≤ x ∧ x < width
    · rw [if_pos hg]
      have hj : x.toNat ≠ j := by omega
      rw [List.getD_eq_getElem?_getD, List.getElem?_set_ne hj,
        ← List.getD_eq_getElem?_getD]
    · simp [hg]

theorem carveCells_length (row : List Cell) (lo hi width : Int) :
    (carveCells row lo hi width).length = row.length :=
  carveCellsAux_length _ _ _ _

theorem carveCells_sets (row : List Cell) (lo hi width : Int) (j : Nat)
    (h1 : lo ≤ (j : Int)) (h2 : (j : Int) ≤ hi) (h3 : (j : Int) < width)
    (h4 : j < row.length) :
    (carveCells row lo hi width).getD j Cell.Land = Cell.River := by
  unfold carveCells
  apply carveCellsAux_sets <;> omega

theorem carveCells_other (row : List Cell) (lo hi width : Int) (j : Nat) (d : Cell)
    (h : (j : Int) < lo ∨ hi < (j : Int)) :
    (carveCells row lo hi width).getD j d = row.getD j d := by
  unfold carveCells
  apply carveCellsAux_other
  omega

theorem scanRiverAux_none (cells : List Cell) :
    ∀ (x : Nat) (acc : Int × Int), (∀ c ∈ cells, c ≠ Cell.River) →
      scanRiverAux cells x acc = acc := by
  induction cells with
  | nil => intro x acc _; rfl
  | cons c rest ih =>
    intro x acc h
    unfold scanRiverAux
    have hc : ¬ (c = Cell.River) := h c (by simp)
    simp only [hc, if_neg]
    exact ih _ _ (fun c' hc' => h c' (by simp [hc']))

theorem replicate_getD_land (w j : Nat) :
    (List.replicate w Cell.Land).getD j Cell.Land = Cell.Land := by
  rw [List.getD_eq_getElem?_getD, List.getElem?_replicate]
  by_cases h : j < w <;> simp [h]

/-- C9: when the scanned reference row has no Channel cell, `generateNewRow`
deterministically produces the fallback row — a channel of fixed width 15
(the 15 cells `[width/2 - 7, width/2 + 7]`, clamped to the grid), all other
cells `Land` — and consumes no randomness (the stream is returned as it
came). -/
theorem fallback_row_c9 (width : Int) (row0 : List Cell) (rest : Grid) (rng : Rng)
    (hw0 : 0 ≤ width) (hlen : width.toNat ≤ row0.length)
    (hnor : ∀ c ∈ row0.take width.toNat, c ≠ Cell.River) :
    generateNewRow width (row0 :: rest) rng =
      some (carveCells (List.replicate width.toNat Cell.Land)
        (Int.tdiv width 2 - 7) (Int.tdiv width 2 + 7) width, rng)
    ∧ (carveCells (List.replicate width.toNat Cell.Land)
        (Int.tdiv width 2 - 7) (Int.tdiv width 2 + 7) width).length = width.toNat
    ∧ ∀ j < width.toNat,
        ((carveCells (List.replicate width.toNat Cell.Land)
            (Int.tdiv width 2 - 7) (Int.tdiv width 2 + 7) width).getD j Cell.Land
          = Cell.River ↔
        Int.tdiv width 2 - 7 ≤ (j : Int) ∧ (j : Int) ≤ Int.tdiv width 2 + 7) := by
  have hscan : scanRiver (row0.take width.toNat) = (-1, -1) :=
    scanRiverAux_none _ 0 (-1, -1) hnor
  refine ⟨?_, ?_, ?_⟩
  · unfold generateNewRow
    have h1 : ¬ width < 0 := by omega
    have h2 : ¬ row0.length < width.toNat := by omega
    simp only [h1, if_neg, List.head?_cons, h2, hscan]
    norm_num
    rw [show Int.tdiv 15 2 = 7 by decide]
  · rw [carveCells_length, List.length_replicate]
  · intro j hj
    constructor
    · intro h
      by_contra hout
      rw [carveCells_other _ _ _ _ _ _ (by omega)] at h
      rw [replicate_getD_land] at h
      exact absurd h (by simp)
    · intro ⟨hlo, hhi⟩
      exact carveCells_sets _ _ _ _ _ hlo hhi (by omega)
        (by rw [List.length_replicate]; omega)

/-- Witness for C9 at width 20 with an all-`Land` reference row. -/
theorem fallback_row_c9_witness :
    generateNewRow 20 [List.replicate 20 Cell.Land] oneRng =
      some (carveCells (List.replicate (20 : Int).toNat Cell.Land)
        (Int.tdiv 20 2 - 7) (Int.tdiv 20 2 + 7) 20, oneRng) :=
  (fallback_row_c9 20 (List.replicate 20 Cell.Land) [] oneRng (by decide) (by decide)
    (by decide)).1

theorem branchCells_length (n : Nat) :
    ∀ (row : List Cell) (start dir width : Int) (i : Nat),
      (branchCells row start dir width i n).length = row.length := by
  induction n with
  | zero => intro row start dir width i; rfl
  | succ n ih =>
    intro row start dir width i
    unfold branchCells
    rw [ih]
    by_cases h : 0 ≤ start + (i : Int) * dir ∧ start + (i : Int) * dir < width
    · simp [h]
    · simp [h]

theorem generateNewRow_spec (width : Int) (row0 : List Cell) (rest : Grid) (rng : Rng)
    (hw0 : 0 ≤ width) (hlen : width.toNat ≤ row0.length) :
    ∃ row rng', generateNewRow width (row0 :: rest) rng = some (row, rng') ∧
      row.length = width.toNat := by
  unfold generateNewRow
  have h1 : ¬ width < 0 := by omega
  have h2 : ¬ row0.length < width.toNat := by omega
  rw [if_neg h1]
  simp only [List.head?_cons]
  rw [if_neg h2]
  simp only [intn]
  repeat' split
  all_goals exact ⟨_, _, rfl,
    by simp [branchCells_length, carveCells_length, List.length_replicate]⟩

theorem tail_getD (t : Grid) (i : Nat) (d : List Cell) :
    t.tail.getD i d = t.getD (i + 1) d := by
  cases t <;> simp [List.getD_eq_getElem?_getD]

theorem append_getD_left (l l' : Grid) (i : Nat) (d : List Cell)
    (h : i < l.length) : (l ++ l').getD i d = l.getD i d := by
  simp [List.getD_eq_getElem?_getD, List.getElem?_append_left h]

/-- C3: one scroll step of an `N`-row grid (`N > 1`) discards row 0, moves
every remaining row up by one, appends a fresh row generated from the
now-shifted top row as context, keeps the row count and the row widths, and
adds exactly 1 to the score. -/
theorem scroll_step_c3 (m : model) (rng : Rng)
    (hN : 1 < m.world.Terrain.length) (hw0 : 0 ≤ m.width)
    (hrows : ∀ row ∈ m.world.Terrain, row.length = m.width.toNat) :
    ∃ row rng',
      generateNewRow m.width m.world.Terrain.tail rng = some (row, rng') ∧
      scrollTerrain m rng = some ({ m with world := { m.world with
        Terrain := m.world.Terrain.tail ++ [row],
        Score := m.world.Score + 1 } }, rng') ∧
      (m.world.Terrain.tail ++ [row]).length = m.world.Terrain.length ∧
      (∀ r ∈ m.world.Terrain.tail ++ [row], r.length = m.width.toNat) ∧
      ∀ i, i + 1 < m.world.Terrain.length →
        (m.world.Terrain.tail ++ [row]).getD i [] = m.world.Terrain.getD (i + 1) [] := by
  rcases htl : m.world.Terrain.tail with _ | ⟨r1, rest⟩
  · have := congrArg List.length htl
    simp [List.length_tail] at this
    omega
  · have hr1mem : r1 ∈ m.world.Terrain := by
      apply List.mem_of_mem_tail
      rw [htl]
      exact List.mem_cons_self r1 rest
    have hr1len : m.width.toNat ≤ r1.length := by
      rw [hrows r1 hr1mem]
    obtain ⟨row, rng', hgen, hrlen⟩ :=
      generateNewRow_spec m.width r1 rest rng hw0 hr1len
    have hlen : m.world.Terrain.length - 1 = rest.length + 1 := by
      have := congrArg List.length htl
      simpa [List.length_tail] using this
    refine ⟨row, rng', hgen, ?_, ?_, ?_, ?_⟩
    · unfold scrollTerrain
      rw [if_neg (by omega), htl, hgen]
    · simp only [List.length_append, List.length_cons]
      simp
      omega
    · intro r hr
      rcases List.mem_append.mp hr with hr | hr
      · rw [← htl] at hr
        exact hrows r (List.mem_of_mem_tail hr)
      · rw [List.mem_singleton.mp hr]
        exact hrlen
    · intro i hi
      have hlt : i < m.world.Terrain.tail.length := by
        simp [List.length_tail]
        omega
      rw [show (r1 :: rest : Grid) = m.world.Terrain.tail from htl.symm,
        append_getD_left _ _ _ _ hlt, tail_getD]

/-- Witness for C3 at the concrete 3-row grid `mC3`. -/
theorem scroll_step_c3_witness :
    ∃ row rng',
      generateNewRow mC3.width mC3.world.Terrain.tail oneRng = some (row, rng') ∧
      scrollTerrain mC3 oneRng = some ({ mC3 with world := { mC3.world with
        Terrain := mC3.world.Terrain.tail ++ [row],
        Score := mC3.world.Score + 1 } }, rng') ∧
      (mC3.world.Terrain.tail ++ [row]).length = mC3.world.Terrain.length ∧
      (∀ r ∈ mC3.world.Terrain.tail ++ [row], r.length = mC3.width.toNat) ∧
      ∀ i, i + 1 < mC3.world.Terrain.length →
        (mC3.world.Terrain.tail ++ [row]).getD i [] = mC3.world.Terrain.getD (i + 1) [] :=
  scroll_step_c3 mC3 oneRng (by decide) (by decide) (by decide)

theorem uniform_of_rows (t : Grid) (w : Nat) (h : ∀ row ∈ t, row.length = w) :
    Uniform t := by
  intro row hr
  cases t with
  | nil => cases hr
  | cons r rest =>
    rw [h row hr, List.headD_cons, h r (by simp)]

theorem checkCollision_world (m : model) (hU : Uniform m.world.Terrain) :
    ∃ m', checkCollision m = some m' ∧ m'.world = m.world := by
  rw [checkCollision_eq m hU]
  by_cases h : evaluate m.world.Terrain m.world.Player.X m.world.Player.Y
      GoalPolicy.NoGoal = Outcome.Safe
  · rw [if_pos h]
    exact ⟨m, rfl, rfl⟩
  · rw [if_neg h]
    exact ⟨_, rfl, rfl⟩

theorem tick_below_threshold (m : model) (rng : Rng) (offs : Nat → Int)
    (hp : m.state = GameState.Playing) (h : m.world.ScrollTicker + 1 < 5) :
    Update m Msg.tick offs rng =
      some ({ m with world := { m.world with
        ScrollTicker := m.world.ScrollTicker + 1 } }, rng) := by
  unfold Update
  rw [if_pos hp]
  rw [if_neg (by simpa using by omega : ¬ (5 : Int) ≤ m.world.ScrollTicker + 1)]

theorem ticks_add (offs : Nat → Int) (a b : Nat) :
    ∀ (m : model) (rng : Rng),
      ticks offs (a + b) m rng =
        match ticks offs a m rng with
        | none => none
        | some (m', rng') => ticks offs b m' rng' := by
  induction a with
  | zero => intro m rng; simp [ticks]
  | succ a ih =>
    intro m rng
    have : a + 1 + b = (a + b) + 1 := by omega
    rw [this]
    show (match Update m Msg.tick offs rng with
      | none => none
      | some (m', rng') => ticks offs (a + b) m' rng') = _
    rcases hU : Update m Msg.tick offs rng with _ | ⟨m', rng'⟩
    · simp [ticks, hU]
    · simp only [ticks, hU]
      exact ih m' rng'

theorem ticks_no_scroll (offs : Nat → Int) (k : Nat) :
    ∀ (m : model) (rng : Rng) (j : Nat), m.state = GameState.Playing →
      m.world.ScrollTicker = (j : Int) → j + k ≤ 4 →
      ticks offs k m rng =
        some ({ m with world := { m.world with
          ScrollTicker := ((j + k : Nat) : Int) } }, rng) := by
  induction k with
  | zero =>
    intro m rng j hp hj _
    show some (m, rng) = _
    rw [show ((j + 0 : Nat) : Int) = m.world.ScrollTicker by rw [hj]; norm_num]
  | succ k ih =>
    intro m rng j hp hj hk
    show (match Update m Msg.tick offs rng with
      | none => none
      | some (m', rng') => ticks offs k m' rng') = _
    rw [tick_below_threshold m rng offs hp (by omega)]
    have hstep := ih { m with world := { m.world with
        ScrollTicker := m.world.ScrollTicker + 1 } } rng (j + 1) hp
      (by rw [hj]; norm_num) (by omega)
    show ticks offs k { m with world := { m.world with
      ScrollTicker := m.world.ScrollTicker + 1 } } rng = _
    rw [hstep]
    congr 2
    push_cast
    ring_nf

theorem tick_at_threshold (m : model) (rng : Rng) (offs : Nat → Int)
    (hp : m.state = GameState.Playing) (h5 : (5 : Int) ≤ m.world.ScrollTicker + 1)
    (hN : 1 < m.world.Terrain.length) (hw0 : 0 ≤ m.width)
    (hrows : ∀ row ∈ m.world.Terrain, row.length = m.width.toNat) :
    ∃ m' rng', Update m Msg.tick offs rng = some (m', rng') ∧
      m'.world.Score = m.world.Score + 1 ∧ m'.world.ScrollTicker = 0 ∧
      m'.world.Terrain.length = m.world.Terrain.length ∧
      ∀ row ∈ m'.world.Terrain, row.length = m.width.toNat := by
  obtain ⟨row, rng', hgen, hscr, hlen2, hrows2, _⟩ :=
    scroll_step_c3 { m with world := { m.world with
      ScrollTicker := m.world.ScrollTicker + 1 } } rng hN hw0 hrows
  obtain ⟨m3, hcc, hw3⟩ := checkCollision_world
    { { m with world := { m.world with
          ScrollTicker := m.world.ScrollTicker + 1 } } with
      world := { ({ m with world := { m.world with
          ScrollTicker := m.world.ScrollTicker + 1 } } : model).world with
        Terrain := ({ m with world := { m.world with
          ScrollTicker := m.world.ScrollTicker + 1 } } : model).world.Terrain.tail ++ [row],
        Score := ({ m with world := { m.world with
          ScrollTicker := m.world.ScrollTicker + 1 } } : model).world.Score + 1 } }
    (uniform_of_rows _ m.width.toNat (by exact hrows2))
  unfold Update
  rw [if_pos hp, if_pos h5, hscr]
  simp only [hcc]
  refine ⟨_, rng', rfl, ?_, rfl, ?_, ?_⟩
  · show m3.world.Score = m.world.Score + 1
    rw [hw3]
  · show m3.world.Terrain.length = m.world.Terrain.length
    rw [hw3]
    exact hlen2
  · intro r hr
    have hr' : r ∈ m3.world.Terrain := hr
    rw [hw3] at hr'
    exact hrows2 r hr'

/-- C4: in the Playing state each tick increments `ScrollTicker`; below the
threshold 5 the tick is a pure ticker increment (no scroll, nothing else
changes), and starting from `ScrollTicker = 0` five consecutive ticks
perform exactly one scroll — the first four leave the model unchanged except
the ticker, the fifth scrolls, adds exactly 1 to the score and resets the
ticker to 0. -/
theorem scroll_cadence_c4 (m : model) (rng : Rng) (offs : Nat → Int)
    (hplay : m.state = GameState.Playing) (htick : m.world.ScrollTicker = 0)
    (hN : 1 < m.world.Terrain.length) (hw0 : 0 ≤ m.width)
    (hrows : ∀ row ∈ m.world.Terrain, row.length = m.width.toNat) :
    (∀ (m' : model) (rng' : Rng), m'.state = GameState.Playing →
      m'.world.ScrollTicker + 1 < 5 →
      Update m' Msg.tick offs rng' = some ({ m' with world := { m'.world with
        ScrollTicker := m'.world.ScrollTicker + 1 } }, rng'))
    ∧ (∀ i : Nat, i ≤ 4 → ticks offs i m rng =
        some ({ m with world := { m.world with
          ScrollTicker := ((0 + i : Nat) : Int) } }, rng))
    ∧ ∃ m5 rng5, ticks offs 5 m rng = some (m5, rng5) ∧
        m5.world.Score = m.world.Score + 1 ∧ m5.world.ScrollTicker = 0 ∧
        m5.world.Terrain.length = m.world.Terrain.length := by
  have hj0 : m.world.ScrollTicker = ((0 : Nat) : Int) := by
    rw [htick]
    norm_num
  refine ⟨fun m' rng' hp h => tick_below_threshold m' rng' offs hp h, ?_, ?_⟩
  · intro i hi
    exact ticks_no_scroll offs i m rng 0 hplay hj0 (by omega)
  · have h4 := ticks_no_scroll offs 4 m rng 0 hplay hj0 (by omega)
    obtain ⟨m5, rng5, hup, hsc, hti, hlen, _⟩ :=
      tick_at_threshold { m with world := { m.world with
        ScrollTicker := ((0 + 4 : Nat) : Int) } } rng offs hplay (by norm_num)
        hN hw0 hrows
    refine ⟨m5, rng5, ?_, hsc, hti, hlen⟩
    rw [show (5 : Nat) = 4 + 1 from rfl, ticks_add offs 4 1 m rng, h4]
    show (match Update { m with world := { m.world with
        ScrollTicker := ((0 + 4 : Nat) : Int) } } Msg.tick offs rng with
      | none => none
      | some (m', rng') => ticks offs 0 m' rng') = some (m5, rng5)
    rw [hup]
    rfl

/-- Witness for C4's five-tick scenario at the concrete model `mC4`. -/
theorem scroll_cadence_c4_witness :
    ∃ m5 rng5, ticks (fun _ => 0) 5 mC4 oneRng = some (m5, rng5) ∧
      m5.world.Score = mC4.world.Score + 1 ∧ m5.world.ScrollTicker = 0 ∧
      m5.world.Terrain.length = mC4.world.Terrain.length :=
  (scroll_cadence_c4 mC4 oneRng (fun _ => 0) (by decide) (by decide) (by decide)
    (by decide) (by decide)).2.2

theorem checkCollision_bounds (m m' : model) (h : checkCollision m = some m') :
    m'.state = GameState.GameOver ∨
      (m' = m ∧ inBounds m'.world.Terrain m'.world.Player.X m'.world.Player.Y) := by
  unfold checkCollision at h
  dsimp only at h
  split at h
  · cases h
    exact Or.inl rfl
  · split at h
    · cases h
    · split at h
      · cases h
      · split at h
        · cases h
          exact Or.inl rfl
        · cases h
          refine Or.inr ⟨rfl, ?_⟩
          unfold inBounds
          omega

theorem moveCheck_inv (m : model) (rng : Rng) (p : model × Rng)
    (h : (match checkCollision m with
      | none => none
      | some m' => some (m', rng)) = some p) : PlayInv p.1 := by
  rcases hc : checkCollision m with _ | m'
  · rw [hc] at h
    cases h
  · rw [hc] at h
    cases h
    intro hpl
    rcases checkCollision_bounds _ _ hc with hgo | ⟨_, hb⟩
    · exact absurd (hgo.symm.trans hpl) (by decide)
    · exact hb

/-- C7 amended: the Playing-state bounds invariant is preserved by every
movement key and by timer ticks (the handlers that run the collision
evaluation after mutating, or mutate nothing but the ticker); the resize
handler is excluded — see the counterexample. -/
theorem playing_bounds_c7_amended (m : model) (rng : Rng) (offs : Nat → Int)
    (msg : Msg)
    (hmsg : msg = Msg.tick ∨ msg = Msg.key Key.up ∨ msg = Msg.key Key.down ∨
      msg = Msg.key Key.left ∨ msg = Msg.key Key.right)
    (hInv : PlayInv m) :
    ∀ p, Update m msg offs rng = some p → PlayInv p.1 := by
  rcases hmsg with rfl | rfl | rfl | rfl | rfl
  · intro p h
    unfold Update at h
    dsimp only at h
    split at h
    · split at h
      · rcases hs : scrollTerrain { m with world := { m.world with
            ScrollTicker := m.world.ScrollTicker + 1 } } rng with _ | ⟨m2, rng2⟩
        · rw [hs] at h
          cases h
        · rw [hs] at h
          dsimp only at h
          rcases hc : checkCollision m2 with _ | m3
          · rw [hc] at h
            cases h
          · rw [hc] at h
            cases h
            intro hpl
            rcases checkCollision_bounds _ _ hc with hgo | ⟨_, hb⟩
            · exact absurd (hgo.symm.trans hpl) (by decide)
            · exact hb
      · cases h
        intro hpl
        exact hInv hpl
    · cases h
      exact hInv
  · intro p h
    unfold Update at h
    dsimp only at h
    split at h
    · exact moveCheck_inv _ rng p h
    · cases h
      exact hInv
  · intro p h
    unfold Update at h
    dsimp only at h
    split at h
    · exact moveCheck_inv _ rng p h
    · cases h
      exact hInv
  · intro p h
    unfold Update at h
    dsimp only at h
    split at h
    · exact moveCheck_inv _ rng p h
    · cases h
      exact hInv
  · intro p h
    unfold Update at h
    dsimp only at h
    split at h
    · exact moveCheck_inv _ rng p h
    · cases h
      exact hInv

/-- C7 counterexample: from a Playing state satisfying the bounds invariant,
a resize to width 0 re-initializes the terrain to zero-width rows,
`placePlayerInRiver` leaves the stale player coordinates untouched (its
`width == 0` no-op guard), no collision evaluation runs, and the resulting
state is still Playing with the player outside the grid's dimensions. -/
theorem playing_bounds_c7_counterexample :
    PlayInv mC7
    ∧ (Update mC7 (Msg.resize 0 12) (fun _ => 0) oneRng).isSome = true
    ∧ (modelOf mC7 (Update mC7 (Msg.resize 0 12) (fun _ => 0) oneRng)).state
        = GameState.Playing
    ∧ ¬ inBounds
        (modelOf mC7 (Update mC7 (Msg.resize 0 12) (fun _ => 0) oneRng)).world.Terrain
        (modelOf mC7 (Update mC7 (Msg.resize 0 12) (fun _ => 0) oneRng)).world.Player.X
        (modelOf mC7 (Update mC7 (Msg.resize 0 12) (fun _ => 0) oneRng)).world.Player.Y := by
  refine ⟨by decide, by decide, by decide, by decide⟩

/-- Witness for the amended C7 theorem: a concrete up-move from `mC7`
preserves the invariant. -/
theorem playing_bounds_c7_amended_witness :
    PlayInv (modelOf mC7 (Update mC7 (Msg.key Key.up) (fun _ => 0) oneRng)) :=
  playing_bounds_c7_amended mC7 oneRng (fun _ => 0) (Msg.key Key.up)
    (Or.inr (Or.inl rfl)) (by decide)
    (modelOf mC7 (Update mC7 (Msg.key Key.up) (fun _ => 0) oneRng), oneRng) rfl

theorem grid_getD_set (t : Grid) (y y' : Nat) (r : List Cell) :
    (t.set y r).getD y' [] =
      if y = y' ∧ y < t.length then r else t.getD y' [] := by
  by_cases h : y = y' ∧ y < t.length
  · obtain ⟨rfl, hlt⟩ := h
    simp [List.getD_eq_getElem?_getD, List.getElem?_set, hlt]
  · rw [if_neg h]
    by_cases he : y = y'
    · subst he
      have hge : t.length ≤ y := by
        rcases Nat.lt_or_ge y t.length with hc | hc
        · exact absurd ⟨rfl, hc⟩ h
        · exact hc
      rw [List.set_eq_of_length_le hge]
    · simp [List.getD_eq_getElem?_getD, List.getElem?_set_ne he]

theorem setCell_length (t : Grid) (y x : Nat) (c : Cell) :
    (setCell t y x c).length = t.length := by
  unfold setCell
  simp

theorem setCell_rows (t : Grid) (y x : Nat) (c : Cell) (y' : Nat) :
    ((setCell t y x c).getD y' []).length = (t.getD y' []).length := by
  unfold setCell
  rw [grid_getD_set]
  split
  · next hcond =>
    obtain ⟨rfl, _⟩ := hcond
    simp
  · rfl

theorem setCell_stable (t : Grid) (y x : Nat) (y' x' : Nat)
    (h : getCell t y' x' = Cell.River) :
    getCell (setCell t y x Cell.River) y' x' = Cell.River := by
  unfold setCell getCell at *
  rw [grid_getD_set]
  split
  · next hcond =>
    obtain ⟨rfl, _⟩ := hcond
    by_cases hx : x = x'
    · subst hx
      by_cases hlt : x < (t.getD y []).length
      · rw [List.getD_eq_getElem?_getD] at hlt
        simp [List.getD_eq_getElem?_getD, List.getElem?_set, hlt]
      · rw [List.set_eq_of_length_le (by omega)]
        exact h
    · rw [List.getD_eq_getElem?_getD, List.getElem?_set_ne hx,
        ← List.getD_eq_getElem?_getD]
      exact h
  · exact h

theorem branchCarve_length (n : Nat) :
    ∀ (t : Grid) (y : Nat) (center dir width : Int) (height : Nat) (i : Nat),
      (branchCarve t y center dir width height i n).length = t.length := by
  induction n with
  | zero => intro t y center dir width height i; rfl
  | succ n ih =>
    intro t y center dir width height i
    unfold branchCarve
    rw [ih]
    split <;> simp [setCell_length]

theorem branchCarve_rows (n : Nat) :
    ∀ (t : Grid) (y : Nat) (center dir width : Int) (height : Nat) (i : Nat) (y' : Nat),
      ((branchCarve t y center dir width height i n).getD y' []).length
        = ((t.getD y' []) : List Cell).length := by
  induction n with
  | zero => intro t y center dir width height i y'; rfl
  | succ n ih =>
    intro t y center dir width height i y'
    unfold branchCarve
    rw [ih]
    split
    · rw [setCell_rows]
    · rfl

theorem branchCarve_stable (n : Nat) :
    ∀ (t : Grid) (y : Nat) (center dir width : Int) (height : Nat) (i : Nat)
      (y' x' : Nat), getCell t y' x' = Cell.River →
      getCell (branchCarve t y center dir width height i n) y' x' = Cell.River := by
  induction n with
  | zero => intro t y center dir width height i y' x' h; exact h
  | succ n ih =>
    intro t y center dir width height i y' x' h
    unfold branchCarve
    apply ih
    split
    · exact setCell_stable _ _ _ _ _ h
    · exact h

theorem carveGridRow_stable (t : Grid) (y : Nat) (lo hi width : Int) (y' x' : Nat)
    (h : getCell t y' x' = Cell.River) :
    getCell (t.set y (carveCells (t.getD y []) lo hi width)) y' x' = Cell.River := by
  unfold getCell at *
  rw [grid_getD_set]
  split
  · next hcond =>
    obtain ⟨rfl, _⟩ := hcond
    unfold carveCells
    exact carveCellsAux_stable _ _ _ _ _ h
  · exact h

theorem initRow_length (width : Int) (height : Nat) (centerX hw : Int)
    (offs : Nat → Int) (acc : Grid × Rng) (y : Nat) :
    (initRow width height centerX hw offs acc y).1.length = acc.1.length := by
  unfold initRow
  dsimp only [intn]
  split
  · rw [branchCarve_length]
    simp
  · simp

theorem initRow_rows (width : Int) (height : Nat) (centerX hw : Int)
    (offs : Nat → Int) (acc : Grid × Rng) (y : Nat) (y' : Nat) :
    (((initRow width height centerX hw offs acc y).1.getD y' []) : List Cell).length
      = ((acc.1.getD y' []) : List Cell).length := by
  unfold initRow
  dsimp only [intn]
  have hbase : ∀ yy : Nat,
      (((acc.1.set y (carveCells (acc.1.getD y [])
        (centerX + offs y - hw) (centerX + offs y + hw) width)).getD yy []) : List Cell).length
      = ((acc.1.getD yy []) : List Cell).length := by
    intro yy
    rw [grid_getD_set]
    split
    · next hcond =>
      obtain ⟨rfl, _⟩ := hcond
      rw [carveCells_length]
    · rfl
  split
  · rw [branchCarve_rows]
    exact hbase y'
  · exact hbase y'

theorem initRow_stable (width : Int) (height : Nat) (centerX hw : Int)
    (offs : Nat → Int) (acc : Grid × Rng) (y : Nat) (y' x' : Nat)
    (h : getCell acc.1 y' x' = Cell.River) :
    getCell (initRow width height centerX hw offs acc y).1 y' x' = Cell.River := by
  unfold initRow
  dsimp only [intn]
  split
  · exact branchCarve_stable _ _ _ _ _ _ _ _ _ _ (carveGridRow_stable _ _ _ _ _ _ _ h)
  · exact carveGridRow_stable _ _ _ _ _ _ _ h

theorem initRow_carves (width : Int) (height : Nat) (centerX hw : Int)
    (offs : Nat → Int) (acc : Grid × Rng) (y : Nat)
    (hy : y < acc.1.length) (hrow : ((acc.1.getD y []) : List Cell).length = width.toNat)
    (j : Nat) (h1 : centerX + offs y - hw ≤ (j : Int))
    (h2 : (j : Int) ≤ centerX + offs y + hw) (h3 : (j : Int) < width) :
    getCell (initRow width height centerX hw offs acc y).1 y j = Cell.River := by
  have hbase : getCell (acc.1.set y (carveCells (acc.1.getD y [])
      (centerX + offs y - hw) (centerX + offs y + hw) width)) y j = Cell.River := by
    unfold getCell
    rw [grid_getD_set, if_pos ⟨rfl, hy⟩]
    exact carveCells_sets _ _ _ _ _ h1 h2 h3 (by omega)
  unfold initRow
  dsimp only [intn]
  split
  · exact branchCarve_stable _ _ _ _ _ _ _ _ _ _ hbase
  · exact hbase

theorem initFold_spec (width : Int) (height : Nat) (centerX hw : Int)
    (offs : Nat → Int) :
    ∀ (ys : List Nat) (t : Grid) (rng : Rng),
      t.length = height →
      (∀ y' < height, ((t.getD y' []) : List Cell).length = width.toNat) →
      (ys.foldl (initRow width height centerX hw offs) (t, rng)).1.length = height ∧
      (∀ y' < height,
        (((ys.foldl (initRow width height centerX hw offs) (t, rng)).1.getD y' [])
          : List Cell).length = width.toNat) ∧
      (∀ y' x', getCell t y' x' = Cell.River →
        getCell (ys.foldl (initRow width height centerX hw offs) (t, rng)).1 y' x'
          = Cell.River) ∧
      ∀ y ∈ ys, y < height → ∀ j : Nat,
        centerX + offs y - hw ≤ (j : Int) → (j : Int) ≤ centerX + offs y + hw →
        (j : Int) < width →
        getCell (ys.foldl (initRow width height centerX hw offs) (t, rng)).1 y j
          = Cell.River := by
  intro ys
  induction ys with
  | nil =>
    intro t rng hlen hrows
    exact ⟨hlen, hrows, fun _ _ h => h, fun y hy => absurd hy (by simp)⟩
  | cons y ys ih =>
    intro t rng hlen hrows
    simp only [List.foldl_cons]
    have hlen' : (initRow width height centerX hw offs (t, rng) y).1.length = height := by
      rw [initRow_length]
      exact hlen
    have hrows' : ∀ y' < height,
        (((initRow width height centerX hw offs (t, rng) y).1.getD y' [])
          : List Cell).length = width.toNat := by
      intro y' hy'
      rw [initRow_rows]
      exact hrows y' hy'
    have hIH := ih (initRow width height centerX hw offs (t, rng) y).1
      (initRow width height centerX hw offs (t, rng) y).2 hlen' hrows'
    refine ⟨hIH.1, hIH.2.1, ?_, ?_⟩
    · intro y' x' h
      exact hIH.2.2.1 y' x' (initRow_stable width height centerX hw offs (t, rng) y y' x' h)
    · intro y0 hy0 hy0h j h1 h2 h3
      rcases List.mem_cons.mp hy0 with rfl | hy0'
      · exact hIH.2.2.1 y0 j (initRow_carves width height centerX hw offs (t, rng) y0
          (show y0 < t.length by omega) (hrows y0 hy0h) j h1 h2 h3)
      · exact hIH.2.2.2 y0 hy0' hy0h j h1 h2 h3

theorem rows_getD (t : Grid) (w : Nat) (hrows : ∀ row ∈ t, row.length = w) :
    ∀ y, y < t.length → ((t.getD y []) : List Cell).length = w := by
  intro y hy
  rw [List.getD_eq_getElem?_getD, List.getElem?_eq_getElem hy]
  exact hrows _ (List.getElem_mem hy)

theorem findInRow_some (row : List Cell) (w : Nat) (h : w ≤ row.length) :
    findInRow row w ≠ none := by
  unfold findInRow
  split
  · simp
  · rw [if_pos h]
    simp

theorem findRiverFrom_some (t : Grid) (w : Nat)
    (hrows : ∀ y, y < t.length → ((t.getD y []) : List Cell).length = w) :
    ∀ k, k ≤ t.length → findRiverFrom t w k ≠ none := by
  intro k
  induction k with
  | zero =>
    intro _
    simp [findRiverFrom]
  | succ k ihk =>
    intro hk
    unfold findRiverFrom
    have hwle : w ≤ ((t.getD k []) : List Cell).length := by
      rw [hrows k (by omega)]
    rcases hfi : findInRow (t.getD k []) w with _ | r
    · exact absurd hfi (findInRow_some _ _ hwle)
    · rcases r with _ | x
      · simp only [hfi]
        exact ihk (by omega)
      · simp [hfi]

theorem placePlayer_spec (m : model) (w : Nat) (hne : m.world.Terrain ≠ [])
    (hw : 0 < w) (hrows : ∀ row ∈ m.world.Terrain, row.length = w) :
    ∃ m', placePlayerInRiver m = some m' ∧ m'.world.Terrain = m.world.Terrain ∧
      m'.state = m.state ∧ m'.world.Score = m.world.Score ∧
      m'.world.ScrollTicker = m.world.ScrollTicker ∧
      m'.width = m.width ∧ m'.height = m.height := by
  have hlen0 : m.world.Terrain.length ≠ 0 := by
    intro h0
    exact hne (List.length_eq_zero.mp h0)
  unfold placePlayerInRiver
  dsimp only
  split
  · next hnone =>
    exact absurd (List.head?_eq_none_iff.mp hnone) hne
  · next row0 hsome =>
    have hrow0 : row0.length = w := hrows row0 (List.mem_of_mem_head? hsome)
    have hgetD : ∀ y, y < m.world.Terrain.length →
        ((m.world.Terrain.getD y []) : List Cell).length = row0.length := by
      intro y hy
      rw [rows_getD m.world.Terrain w hrows y hy, hrow0]
    split
    · exact ⟨m, rfl, rfl, rfl, rfl, rfl, rfl, rfl⟩
    · split
      · split
        · next hlt =>
          rw [hgetD _ (show (0 : Int).toNat < m.world.Terrain.length by omega)] at hlt
          omega
        · split
          · exact ⟨_, rfl, rfl, rfl, rfl, rfl, rfl, rfl⟩
          · split
            · next hf =>
              exact absurd hf (findRiverFrom_some _ _ hgetD _ (le_refl _))
            · exact ⟨m, rfl, rfl, rfl, rfl, rfl, rfl, rfl⟩
            · exact ⟨_, rfl, rfl, rfl, rfl, rfl, rfl, rfl⟩
      · split
        · next hlt =>
          rw [hgetD _ (show ((m.world.Terrain.length : Int) - 5).toNat
            < m.world.Terrain.length by omega)] at hlt
          omega
        · split
          · exact ⟨_, rfl, rfl, rfl, rfl, rfl, rfl, rfl⟩
          · split
            · next hf =>
              exact absurd hf (findRiverFrom_some _ _ hgetD _ (le_refl _))
            · exact ⟨m, rfl, rfl, rfl, rfl, rfl, rfl, rfl⟩
            · exact ⟨_, rfl, rfl, rfl, rfl, rfl, rfl, rfl⟩

theorem rows_of_getD (t : Grid) (w : Nat)
    (h : ∀ y, y < t.length → ((t.getD y []) : List Cell).length = w) :
    ∀ row ∈ t, row.length = w := by
  intro row hr
  obtain ⟨y, hy, rfl⟩ := List.mem_iff_getElem.mp hr
  rw [← h y hy]
  rw [List.getD_eq_getElem?_getD, List.getElem?_eq_getElem hy]
  rfl

theorem hasRun_of (row : List Cell) (s : Nat) (h8 : s + 8 ≤ row.length)
    (h : ∀ k, k < 8 → row.getD (s + k) Cell.Land = Cell.River) :
    hasRun row 8 = true := by
  unfold hasRun
  rw [List.any_eq_true]
  refine ⟨s, List.mem_range.mpr (by omega), ?_⟩
  unfold runFrom
  rw [List.all_eq_true]
  intro j hj
  have := h j (List.mem_range.mp hj)
  simpa using this

/-- C5 amended: with the width bound raised from 20 to 25, every generated
initial grid (any randomness, any sinusoidal offset sequence bounded by 10
in magnitude — which the program's `int(sin(y/5)*10)` always is) has a
contiguous Channel run of length ≥ 8 in every row.  At widths 20-24 the
claim fails (see the counterexample): an offset of magnitude 9 can clamp
the channel to as few as 6 cells. -/
theorem channel_run_c5_amended (m : model) (offs : Nat → Int) (rng : Rng)
    (hoff : ∀ y, -10 ≤ offs y ∧ offs y ≤ 10)
    (hwide : 25 ≤ m.width) (htall : 12 ≤ m.height) :
    ∃ p, initializeTerrain m offs rng = some p ∧
      p.1.world.Terrain.length = (m.height - 2).toNat ∧
      ∀ row ∈ p.1.world.Terrain, row.length = m.width.toNat ∧ hasRun row 8 = true := by
  have hcx : Int.tdiv m.width 2 = m.width / 2 :=
    Int.tdiv_eq_ediv (by omega) (by omega)
  have hr11 : rng 0 % 11 < 11 := Nat.mod_lt _ (by omega)
  have hhw : Int.tdiv (((rng 0 % 11 : Nat) : Int) + 10) 2
      = (((rng 0 % 11 : Nat) : Int) + 10) / 2 :=
    Int.tdiv_eq_ediv (by omega) (by omega)
  have hfold := initFold_spec m.width ((m.height - 2).toNat) (Int.tdiv m.width 2)
    (Int.tdiv (((rng 0 % 11 : Nat) : Int) + 10) 2) offs
    (List.range (m.height - 2).toNat)
    (List.replicate ((m.height - 2).toNat) (List.replicate m.width.toNat Cell.Land))
    (fun i => rng (i + 1)) (by simp)
    (by
      intro y' hy'
      rw [List.getD_eq_getElem?_getD, List.getElem?_replicate]
      rw [if_pos hy']
      simp)
  obtain ⟨m', hpp, hterr, _, _, _, _, _⟩ := placePlayer_spec
    { m with world := { m.world with Terrain :=
      ((List.range ((m.height - 2).toNat)).foldl
        (initRow m.width ((m.height - 2).toNat) (Int.tdiv m.width 2)
          (Int.tdiv (((rng 0 % 11 : Nat) : Int) + 10) 2) offs)
        (List.replicate ((m.height - 2).toNat) (List.replicate m.width.toNat Cell.Land),
          fun i => rng (i + 1))).1 } }
    m.width.toNat
    (List.ne_nil_of_length_pos
      (lt_of_lt_of_eq (show 0 < (m.height - 2).toNat by omega) hfold.1.symm))
    (by omega)
    (rows_of_getD _ _ (by
      intro y hy
      refine hfold.2.1 y ?_
      rw [← hfold.1]
      exact hy))
  unfold initializeTerrain
  dsimp only [intn]
  rw [if_neg (show ¬ m.height - 2 < 0 by omega)]
  rw [if_neg (show ¬ (m.width < 0 ∧ ((m.height - 2).toNat ≠ 0)) by
    rintro ⟨hc, _⟩
    omega)]
  rw [hpp]
  refine ⟨_, rfl, ?_, ?_⟩
  · rw [hterr]
    exact hfold.1
  · intro row hrow
    rw [hterr] at hrow
    have hrlen : row.length = m.width.toNat := rows_of_getD _ _ (by
      intro y hy
      refine hfold.2.1 y ?_
      rw [← hfold.1]
      exact hy) row hrow
    refine ⟨hrlen, ?_⟩
    obtain ⟨y, hy, hre⟩ := List.mem_iff_getElem.mp hrow
    have hyH : y < (m.height - 2).toNat := by
      rw [← hfold.1]
      exact hy
    have hrow_getD : ((List.range ((m.height - 2).toNat)).foldl
        (initRow m.width ((m.height - 2).toNat) (Int.tdiv m.width 2)
          (Int.tdiv (((rng 0 % 11 : Nat) : Int) + 10) 2) offs)
        (List.replicate ((m.height - 2).toNat) (List.replicate m.width.toNat Cell.Land),
          fun i => rng (i + 1))).1.getD y [] = row := by
      rw [List.getD_eq_getElem?_getD, List.getElem?_eq_getElem hy, hre]
      rfl
    have hcarve := hfold.2.2.2 y (List.mem_range.mpr hyH) hyH
    obtain ⟨ho1, ho2⟩ := hoff y
    refine hasRun_of row
      ((Int.tdiv m.width 2 + offs y
        - Int.tdiv (((rng 0 % 11 : Nat) : Int) + 10) 2).toNat) ?_ ?_
    · rw [hrlen, hcx] at *
      rw [hhw]
      omega
    · intro k hk
      have hcell := hcarve ((Int.tdiv m.width 2 + offs y
          - Int.tdiv (((rng 0 % 11 : Nat) : Int) + 10) 2).toNat + k)
        (by rw [hcx, hhw] at *; push_cast; omega)
        (by rw [hcx, hhw] at *; push_cast; omega)
        (by rw [hcx, hhw] at *; push_cast; omega)
      unfold getCell at hcell
      rw [hrow_getD] at hcell
      exact hcell

/-- C5 counterexample: the initial grid generated at width 20, height 10
with the program's sinusoidal offsets (offset 9 at row 8) and a randomness
stream giving channel width 11 and no branches has no contiguous Channel
run of length 8 in row 8 — the channel interval `[19-5, 19+5]` is clamped
to the 6 cells `[14, 19]`. -/
theorem channel_run_c5_counterexample :
    (initializeTerrain mC5 sinOffset oneRng).isSome = true
    ∧ (terrainOf (initializeTerrain mC5 sinOffset oneRng)).length = 10
    ∧ (∀ row ∈ terrainOf (initializeTerrain mC5 sinOffset oneRng), row.length = 20)
    ∧ hasRun ((terrainOf (initializeTerrain mC5 sinOffset oneRng)).getD 8 []) 8
        = false := by
  refine ⟨by decide, by decide, by decide, by decide⟩

/-- Witness for the amended C5 theorem at width 25 with zero offsets. -/
theorem channel_run_c5_amended_witness :
    ∃ p, initializeTerrain mC5w (fun _ => 0) oneRng = some p ∧
      p.1.world.Terrain.length = (mC5w.height - 2).toNat ∧
      ∀ row ∈ p.1.world.Terrain, row.length = mC5w.width.toNat ∧
        hasRun row 8 = true :=
  channel_run_c5_amended mC5w (fun _ => 0) oneRng
    (fun _ => ⟨(by decide : (-10 : Int) ≤ 0), (by decide : (0 : Int) ≤ 10)⟩)
    (by decide) (by decide)
